import Mathlib

/-!
# Verification of the AI-Curation workflow supervisor and news pipeline

Shallow embedding of the repository `yang-danny/AI-Curation`:
* `src/utils/workflow_utils.py` (workflow state, retry helper, summary),
* `src/agents/supervisor.py` (`execute_with_retry`, status derivation,
  content-generation skip condition),
* `src/agents/news_gatherer.py` (`_build_queries`, `_validate_items_local`,
  the time-window filter and the enrichment merge of `gather_news`),
* `src/utils/scraping.py` (`_normalize_date`).

Python dynamic values are modelled explicitly: optional strings stand for
`str | None` fields, and Python truthiness (`None` and `""` are falsy) is the
function `truthyS`.  Calls into the Python standard library
(`datetime.strptime`, `datetime.fromisoformat`, `urllib.parse.urlparse`) are
modelled by executable Lean functions that follow the CPython behaviour for
the inputs the repository feeds them; network effects (`scrape_url`, the
agent executors, `time.sleep`) are abstracted as explicit parameters and the
sleep durations are collected into a list.
-/

namespace AICur

/-- Python truthiness of a `str | None` value: `None` and `""` are falsy. -/
def truthyS : Option String → Bool
  | none => false
  | some s => s ≠ ""

/-- Python `a or b` on two `str | None` values: returns `a` when truthy,
otherwise `b`. -/
def pyOr (a b : Option String) : Option String :=
  if truthyS a then a else b

/-- Python `a or b` where `b` is a plain string (so the result is a string). -/
def pyOrStr (a : Option String) (b : String) : String :=
  if truthyS a then a.getD "" else b

/-- Substring test on character lists: Python `needle in hay`. -/
def containsSub (needle : List Char) : List Char → Bool
  | [] => needle.isEmpty
  | c :: rest => needle.isPrefixOf (c :: rest) || containsSub needle rest

/-- Python `needle in hay` for strings. -/
def strContains (hay needle : String) : Bool :=
  containsSub needle.data hay.data

/-- Python `str.strip()`: drop leading and trailing whitespace. -/
def pyStrip (s : String) : String :=
  String.mk (((s.data.dropWhile Char.isWhitespace).reverse.dropWhile Char.isWhitespace).reverse)

/-- Python `str.lower()` (ASCII case folding). -/
def pyLower (s : String) : String :=
  String.mk (s.data.map Char.toLower)

/-! ## Workflow state (`src/utils/workflow_utils.py`)

`WorkflowStatus.part` models the Python enum member `WorkflowStatus.PARTIAL`
(value `"partial"`). -/

/-- `WorkflowStatus` enum of `workflow_utils.py` (member `part` = PARTIAL). -/
inductive WorkflowStatus where
  | pending | running | success | failed | part | skipped
deriving DecidableEq, Repr

/-- `StepStatus` enum of `workflow_utils.py`. -/
inductive StepStatus where
  | pending | running | success | failed | retrying | skipped
deriving DecidableEq, Repr

/-- A Python value returned by an agent executor, as far as
`execute_with_retry` inspects it: `None`, a dict, a string, or some other
truthy object.  Dict entries are string-keyed strings (the payload content is
irrelevant to the supervisor). -/
inductive PyResult where
  | pyNone
  | pyDict (entries : List (String × String))
  | pyStr (s : String)
  | pyOther
deriving DecidableEq, Repr

/-- Python truthiness of a `PyResult` (`None`, `{}` and `""` are falsy). -/
def pyTruthy : PyResult → Bool
  | .pyNone => false
  | .pyDict entries => entries ≠ []
  | .pyStr s => s ≠ ""
  | .pyOther => true

/-- `isinstance(result, dict) or isinstance(result, str)`. -/
def isDictOrStr : PyResult → Bool
  | .pyDict _ => true
  | .pyStr _ => true
  | _ => false

/-- The validity check of `execute_with_retry` (supervisor.py line 95):
`result and (isinstance(result, dict) or isinstance(result, str))`. -/
def isValidResult (r : PyResult) : Bool :=
  pyTruthy r && isDictOrStr r

/-- A step record, as created by `WorkflowState.add_step`.  Wall-clock fields
(`start_time`, `end_time`, `duration`) are outside the embedding. -/
structure StepRec where
  name : String
  description : String
  status : StepStatus
  attempts : Nat
  maxAttempts : Nat
  error : Option String
  result : Option PyResult
deriving DecidableEq, Repr

/-- The supervisor-owned workflow state (`WorkflowState` in
`workflow_utils.py`).  `steps` keeps insertion order like a Python dict;
`totalSteps`/`completedSteps`/`failedSteps` are the `metadata` counters. -/
structure WorkflowState where
  status : WorkflowStatus
  steps : List (String × StepRec)
  results : List (String × Option PyResult)
  errors : List (String × String)
  totalSteps : Nat
  completedSteps : Nat
  failedSteps : Nat
deriving DecidableEq, Repr

/-- `WorkflowState.__init__`: empty state, counters zero, status pending. -/
def WorkflowState.initial : WorkflowState :=
  { status := .pending, steps := [], results := [], errors := []
    totalSteps := 0, completedSteps := 0, failedSteps := 0 }

/-- `WorkflowState.add_step`: registers a pending step and bumps
`metadata["total_steps"]`. -/
def addStep (st : WorkflowState) (name description : String) : WorkflowState :=
  { st with
    steps := st.steps ++ [(name,
      { name := name, description := description, status := .pending
        attempts := 0, maxAttempts := 3, error := none, result := none })]
    totalSteps := st.totalSteps + 1 }

/-- Update the record stored under `name` (Python `self.steps[name][...] = v`;
step names are unique keys, so mapping over the association list is the dict
update). -/
def updateSteps (steps : List (String × StepRec)) (name : String)
    (f : StepRec → StepRec) : List (String × StepRec) :=
  steps.map fun p => if p.1 = name then (p.1, f p.2) else p

/-- Python `step_name in self.steps`. -/
def hasStep (st : WorkflowState) (name : String) : Bool :=
  st.steps.any fun p => p.1 = name

/-- Lookup of `self.steps[step_name]`. -/
def lookupStep (st : WorkflowState) (name : String) : Option StepRec :=
  (st.steps.find? fun p => p.1 = name).map (·.2)

/-- `WorkflowState.start_step`: mark running and record the attempt number
(no-op when the step is not registered). -/
def startStep (st : WorkflowState) (name : String) (attempt : Nat) : WorkflowState :=
  if hasStep st name then
    { st with steps := updateSteps st.steps name fun r =>
        { r with status := .running, attempts := attempt } }
  else st

/-- `WorkflowState.complete_step`: with a truthy `error` the step fails (error
stored, failed counter bumped, error logged); otherwise it succeeds (result
stored, completed counter bumped). -/
def completeStep (st : WorkflowState) (name : String)
    (result : Option PyResult) (error : Option String) : WorkflowState :=
  if hasStep st name then
    if truthyS error then
      { st with
        steps := updateSteps st.steps name fun r =>
          { r with status := .failed, error := error }
        failedSteps := st.failedSteps + 1
        errors := st.errors ++ [(name, error.getD "")] }
    else
      { st with
        steps := updateSteps st.steps name fun r =>
          { r with status := .success, result := result }
        results := st.results ++ [(name, result)]
        completedSteps := st.completedSteps + 1 }
  else st

/-- `WorkflowState.retry_step`. -/
def retryStep (st : WorkflowState) (name : String) : WorkflowState :=
  if hasStep st name then
    { st with steps := updateSteps st.steps name fun r => { r with status := .retrying } }
  else st

/-- `WorkflowState.skip_step`. -/
def skipStep (st : WorkflowState) (name : String) (reason : String) : WorkflowState :=
  if hasStep st name then
    { st with steps := updateSteps st.steps name fun r =>
        { r with status := .skipped, error := some reason } }
  else st

/-- The summary dict built by `WorkflowState.get_summary` (timestamp fields
omitted; `successRate` is the Python float expression as a rational). -/
structure WorkflowSummary where
  workflowStatus : WorkflowStatus
  totalSteps : Nat
  completedSteps : Nat
  failedSteps : Nat
  successRate : ℚ
deriving DecidableEq, Repr

/-- `WorkflowState.get_summary`: the `success_rate` entry is
`completed / total * 100` guarded by `if total_steps > 0 else 0`. -/
def getSummary (st : WorkflowState) : WorkflowSummary :=
  { workflowStatus := st.status
    totalSteps := st.totalSteps
    completedSteps := st.completedSteps
    failedSteps := st.failedSteps
    successRate :=
      if st.totalSteps > 0 then
        (st.completedSteps : ℚ) / (st.totalSteps : ℚ) * 100
      else 0 }

/-- `SupervisorAgent._initialize_workflow`: the four registered steps. -/
def initSupervisorState : WorkflowState :=
  addStep (addStep (addStep (addStep WorkflowState.initial
    "news_gathering" "Gather latest news articles and events")
    "social_media_monitoring" "Monitor social media accounts for relevant posts")
    "content_generation" "Generate publication-ready content")
    "final_output" "Compile and save final outputs"

/-! ## Retry helper (`RetryHelper` in `workflow_utils.py`) -/

/-- The fixed non-retriable error fragments of `RetryHelper.should_retry`. -/
def nonRetriableErrors : List String :=
  ["authentication", "authorization", "invalid_api_key"]

/-- `any(err in error_str for err in non_retriable_errors)` on
`str(error).lower()`. -/
def isNonRetriableMsg (errMsg : String) : Bool :=
  nonRetriableErrors.any fun err => strContains (pyLower errMsg) err

/-- `RetryHelper.should_retry(attempt, max_attempts, error)`. -/
def shouldRetry (attempt maxAttempts : Nat) (errMsg : String) : Bool :=
  if attempt ≥ maxAttempts then false
  else if isNonRetriableMsg errMsg then false
  else true

/-- `RetryHelper.get_delay(attempt, base_delay)`: exponential backoff
`base_delay * 2 ** (attempt - 1)`. -/
def getDelay (attempt baseDelay : Nat) : Nat :=
  baseDelay * 2 ^ (attempt - 1)

/-! ## `SupervisorAgent.execute_with_retry` (`supervisor.py` lines 54-143)

One call of the agent executor on a given attempt either returns a Python
value or raises an exception carrying a message (`str(e)`). -/

/-- Outcome of `await agent_executor(state)` on one attempt. -/
inductive ExecOutcome where
  | ret (v : PyResult)
  | exn (msg : String)

/-- Result of a full `execute_with_retry` call: the returned value (`None`
when the step failed), the updated workflow state, the backoff sleep
durations in order, and whether the failure was re-raised
(`continue_on_failure` disabled). -/
structure ExecResult where
  ret : Option PyResult
  st : WorkflowState
  sleeps : List Nat
  raised : Bool
deriving Repr

/-- The `for attempt in range(1, max_retries + 1)` loop of
`execute_with_retry`.  `fuel` counts the remaining loop iterations
(initially `max_retries`, so `fuel = max_retries - attempt + 1` throughout);
when it runs out the loop falls through and returns `None` (line 143).
Saving intermediate results (`_save_intermediate_result`) only touches the
filesystem and catches its own exceptions, so it does not appear in the
state. -/
def execLoop (executor : Nat → ExecOutcome) (agentName stepName : String)
    (maxRetries baseDelay : Nat) (contOnFail : Bool) :
    Nat → Nat → WorkflowState → List Nat → ExecResult
  | 0, _, st, sleeps => ⟨none, st, sleeps, false⟩
  | fuel + 1, attempt, st, sleeps =>
    let st1 := startStep st stepName attempt
    match executor attempt with
    | .ret v =>
      if isValidResult v then
        ⟨some v, completeStep st1 stepName (some v) none, sleeps, false⟩
      else
        -- `raise ValueError("Agent returned no valid results")`, caught below
        let e := "Agent returned no valid results"
        let errorMsg := agentName ++ " failed: " ++ e
        if attempt < maxRetries && shouldRetry attempt maxRetries e then
          execLoop executor agentName stepName maxRetries baseDelay contOnFail
            fuel (attempt + 1) (retryStep st1 stepName)
            (sleeps ++ [getDelay attempt baseDelay])
        else
          let st2 := completeStep st1 stepName none (some errorMsg)
          if contOnFail then ⟨none, st2, sleeps, false⟩ else ⟨none, st2, sleeps, true⟩
    | .exn e =>
      let errorMsg := agentName ++ " failed: " ++ e
      if attempt < maxRetries && shouldRetry attempt maxRetries e then
        execLoop executor agentName stepName maxRetries baseDelay contOnFail
          fuel (attempt + 1) (retryStep st1 stepName)
          (sleeps ++ [getDelay attempt baseDelay])
      else
        let st2 := completeStep st1 stepName none (some errorMsg)
        if contOnFail then ⟨none, st2, sleeps, false⟩ else ⟨none, st2, sleeps, true⟩

/-- `SupervisorAgent.execute_with_retry`: run the loop starting at attempt 1
with `max_retries` iterations available. -/
def executeWithRetry (executor : Nat → ExecOutcome) (agentName stepName : String)
    (maxRetries baseDelay : Nat) (contOnFail : Bool) (st : WorkflowState) : ExecResult :=
  execLoop executor agentName stepName maxRetries baseDelay contOnFail
    maxRetries 1 st []

/-! ## Workflow-level status derivation (`supervisor.py` lines 255-266 and
414-422) -/

/-- Truthiness of an optional step result (`if content_results:` etc.). -/
def optTruthy : Option PyResult → Bool
  | none => false
  | some v => pyTruthy v

/-- The skip condition of `run_content_generation` (line 256):
`if not news_results and not social_results`. -/
def contentGenSkips (news social : Option PyResult) : Bool :=
  !optTruthy news && !optTruthy social

/-- The value `run_content_generation` hands back: `None` when skipped,
otherwise whatever `execute_with_retry` returned for the step. -/
def runContentGenerationResult (news social : Option PyResult)
    (execResult : Option PyResult) : Option PyResult :=
  if contentGenSkips news social then none else execResult

/-- The overall-status derivation at the end of `run_workflow`
(lines 414-420). -/
def deriveWorkflowStatus (content news social : Option PyResult) : WorkflowStatus :=
  if optTruthy content then .success
  else if optTruthy news || optTruthy social then .part
  else .failed

/-! ## Dates: `datetime.strptime` / `isoformat` model for `_normalize_date`
(`src/utils/scraping.py` lines 12-29)

The parsers below follow CPython's `_strptime` regexes for the directives the
repository uses (`%Y %m %d %b %H %M %S %z` and literals, compiled with
`re.IGNORECASE`, whitespace in the format matching one or more whitespace
characters), followed by the `datetime` constructor's range validation. -/

/-- Numeric value of a digit character. -/
def digitVal (c : Char) : Nat := c.toNat - 48

/-- Exactly two digits (helper for fixed-width numeric fields). -/
def pTwoDigits : List Char → Option (Nat × List Char)
  | a :: b :: rest =>
    if a.isDigit && b.isDigit then some (10 * digitVal a + digitVal b, rest) else none
  | _ => none

/-- `%Y`: exactly four digits (CPython regex `\d\d\d\d`). -/
def pYear4 : List Char → Option (Nat × List Char)
  | a :: b :: c :: d :: rest =>
    if a.isDigit && b.isDigit && c.isDigit && d.isDigit then
      some (1000 * digitVal a + 100 * digitVal b + 10 * digitVal c + digitVal d, rest)
    else none
  | _ => none

/-- `%m`: ordered alternation `1[0-2]|0[1-9]|[1-9]`. -/
def pMonthNum : List Char → Option (Nat × List Char)
  | '1' :: c :: rest =>
    if '0' ≤ c && c ≤ '2' then some (10 + digitVal c, rest) else some (1, c :: rest)
  | '0' :: c :: rest =>
    if '1' ≤ c && c ≤ '9' then some (digitVal c, rest) else none
  | c :: rest =>
    if '1' ≤ c && c ≤ '9' then some (digitVal c, rest) else none
  | [] => none

/-- `%d`: ordered alternation `3[01]|[12]\d|0[1-9]|[1-9]`. -/
def pDayNum : List Char → Option (Nat × List Char)
  | '3' :: c :: rest =>
    if c = '0' || c = '1' then some (30 + digitVal c, rest) else some (3, c :: rest)
  | '1' :: c :: rest =>
    if c.isDigit then some (10 + digitVal c, rest) else some (1, c :: rest)
  | '2' :: c :: rest =>
    if c.isDigit then some (20 + digitVal c, rest) else some (2, c :: rest)
  | '0' :: c :: rest =>
    if '1' ≤ c && c ≤ '9' then some (digitVal c, rest) else none
  | c :: rest =>
    if '1' ≤ c && c ≤ '9' then some (digitVal c, rest) else none
  | [] => none

/-- `%H`: ordered alternation `2[0-3]|[0-1]\d|\d`. -/
def pHour : List Char → Option (Nat × List Char)
  | '2' :: c :: rest =>
    if '0' ≤ c && c ≤ '3' then some (20 + digitVal c, rest) else some (2, c :: rest)
  | '0' :: c :: rest =>
    if c.isDigit then some (digitVal c, rest) else some (0, c :: rest)
  | '1' :: c :: rest =>
    if c.isDigit then some (10 + digitVal c, rest) else some (1, c :: rest)
  | c :: rest =>
    if c.isDigit then some (digitVal c, rest) else none
  | [] => none

/-- `%M`: ordered alternation `[0-5]\d|\d`. -/
def pMinute : List Char → Option (Nat × List Char)
  | c1 :: c2 :: rest =>
    if '0' ≤ c1 && c1 ≤ '5' && c2.isDigit then some (10 * digitVal c1 + digitVal c2, rest)
    else if c1.isDigit then some (digitVal c1, c2 :: rest)
    else none
  | [c] => if c.isDigit then some (digitVal c, []) else none
  | [] => none

/-- `%S`: ordered alternation `6[0-1]|[0-5]\d|\d` (leap seconds pass the regex
and are rejected later by the `datetime` constructor). -/
def pSecond : List Char → Option (Nat × List Char)
  | '6' :: c :: rest =>
    if c = '0' || c = '1' then some (60 + digitVal c, rest) else some (6, c :: rest)
  | c1 :: c2 :: rest =>
    if '0' ≤ c1 && c1 ≤ '5' && c2.isDigit then some (10 * digitVal c1 + digitVal c2, rest)
    else if c1.isDigit then some (digitVal c1, c2 :: rest)
    else none
  | [c] => if c.isDigit then some (digitVal c, []) else none
  | [] => none

/-- The abbreviated month names of the C locale, lowercased (matched
case-insensitively by `%b`). -/
def monthAbbrevs : List (String × Nat) :=
  [("jan", 1), ("feb", 2), ("mar", 3), ("apr", 4), ("may", 5), ("jun", 6),
   ("jul", 7), ("aug", 8), ("sep", 9), ("oct", 10), ("nov", 11), ("dec", 12)]

/-- `%b`: one of the three-letter month abbreviations, case-insensitive. -/
def pMonthAbbr : List Char → Option (Nat × List Char)
  | a :: b :: c :: rest =>
    let s := String.mk [a.toLower, b.toLower, c.toLower]
    match monthAbbrevs.find? (fun p => p.1 = s) with
    | some p => some (p.2, rest)
    | none => none
  | _ => none

/-- Whitespace in a format string: matches one or more whitespace chars. -/
def pWhite : List Char → Option (List Char)
  | c :: rest => if c.isWhitespace then some (rest.dropWhile Char.isWhitespace) else none
  | [] => none

/-- A literal format character (matched case-insensitively, since CPython
compiles the format regex with `re.IGNORECASE`). -/
def pLit (ch : Char) : List Char → Option (List Char)
  | c :: rest => if c.toLower = ch.toLower then some rest else none
  | [] => none

/-- `%z`: `[+-]HH[:]MM` with optional `[:]SS`, or the literal `Z` (UTC);
fractional offset seconds are not used by this repository and are omitted.
Returns the UTC offset in seconds. -/
def pTzOffset : List Char → Option (Int × List Char)
  | 'Z' :: rest => some (0, rest)
  | sign :: h1 :: h2 :: rest =>
    if (sign = '+' || sign = '-') && h1.isDigit && h2.isDigit then
      let hh := 10 * digitVal h1 + digitVal h2
      let rest2 := match rest with
        | ':' :: r => r
        | r => r
      match rest2 with
      | m1 :: m2 :: rest3 =>
        if '0' ≤ m1 && m1 ≤ '5' && m2.isDigit then
          let mm := 10 * digitVal m1 + digitVal m2
          let rest4 := match rest3 with
            | ':' :: s1 :: s2 :: r =>
              if '0' ≤ s1 && s1 ≤ '5' && s2.isDigit then r else ':' :: s1 :: s2 :: r
            | s1 :: s2 :: r =>
              if '0' ≤ s1 && s1 ≤ '5' && s2.isDigit then r else s1 :: s2 :: r
            | r => r
          let ss : Nat := match rest3 with
            | ':' :: s1 :: s2 :: _ =>
              if '0' ≤ s1 && s1 ≤ '5' && s2.isDigit then 10 * digitVal s1 + digitVal s2 else 0
            | s1 :: s2 :: _ =>
              if '0' ≤ s1 && s1 ≤ '5' && s2.isDigit then 10 * digitVal s1 + digitVal s2 else 0
            | _ => 0
          let total : Int := (hh * 3600 + mm * 60 + ss : Nat)
          some (if sign = '-' then -total else total, rest4)
        else none
      | _ => none
    else none
  | _ => none

/-- Gregorian leap year (as in Python's `calendar.isleap`). -/
def isLeapYear (y : Nat) : Bool :=
  y % 4 = 0 && (y % 100 ≠ 0 || y % 400 = 0)

/-- Days in a month (the `datetime` constructor's day validation). -/
def daysInMonth (y m : Nat) : Nat :=
  if m = 2 then (if isLeapYear y then 29 else 28)
  else if m = 4 || m = 6 || m = 9 || m = 11 then 30
  else 31

/-- A Python `datetime` value as far as this repository observes it
(microseconds are always zero for the formats used; `tzSeconds` is the UTC
offset of `tzinfo` in seconds, when aware). -/
structure PyDateTime where
  year : Nat
  month : Nat
  day : Nat
  hour : Nat
  minute : Nat
  second : Nat
  tzSeconds : Option Int
deriving DecidableEq, Repr

/-- The `datetime` constructor's validation (`MINYEAR ≤ year ≤ MAXYEAR`,
month/day/hour/minute/second ranges, timezone offset strictly below 24h). -/
def mkDatetime (y mo d h mi s : Nat) (tz : Option Int) : Option PyDateTime :=
  if 1 ≤ y && y ≤ 9999 && 1 ≤ mo && mo ≤ 12 && 1 ≤ d && d ≤ daysInMonth y mo
      && h ≤ 23 && mi ≤ 59 && s ≤ 59
      && (match tz with | none => true | some off => off.natAbs < 86400) then
    some ⟨y, mo, d, h, mi, s, tz⟩
  else none

/-- `datetime.strptime(t, "%Y-%m-%d")` (full-string match required). -/
def strpYmdDash (t : String) : Option PyDateTime := do
  let (y, r1) ← pYear4 t.data
  let r2 ← pLit '-' r1
  let (mo, r3) ← pMonthNum r2
  let r4 ← pLit '-' r3
  let (d, r5) ← pDayNum r4
  if r5 = [] then mkDatetime y mo d 0 0 0 none else none

/-- `datetime.strptime(t, "%Y/%m/%d")`. -/
def strpYmdSlash (t : String) : Option PyDateTime := do
  let (y, r1) ← pYear4 t.data
  let r2 ← pLit '/' r1
  let (mo, r3) ← pMonthNum r2
  let r4 ← pLit '/' r3
  let (d, r5) ← pDayNum r4
  if r5 = [] then mkDatetime y mo d 0 0 0 none else none

/-- `datetime.strptime(t, "%d %b %Y")`. -/
def strpDayMonAbbrYear (t : String) : Option PyDateTime := do
  let (d, r1) ← pDayNum t.data
  let r2 ← pWhite r1
  let (mo, r3) ← pMonthAbbr r2
  let r4 ← pWhite r3
  let (y, r5) ← pYear4 r4
  if r5 = [] then mkDatetime y mo d 0 0 0 none else none

/-- `datetime.strptime(t, "%b %d, %Y")`. -/
def strpMonAbbrDayYear (t : String) : Option PyDateTime := do
  let (mo, r1) ← pMonthAbbr t.data
  let r2 ← pWhite r1
  let (d, r3) ← pDayNum r2
  let r4 ← pLit ',' r3
  let r5 ← pWhite r4
  let (y, r6) ← pYear4 r5
  if r6 = [] then mkDatetime y mo d 0 0 0 none else none

/-- `datetime.strptime(t, "%Y-%m-%dT%H:%M:%S%z")`. -/
def strpIsoWithTz (t : String) : Option PyDateTime := do
  let (y, r1) ← pYear4 t.data
  let r2 ← pLit '-' r1
  let (mo, r3) ← pMonthNum r2
  let r4 ← pLit '-' r3
  let (d, r5) ← pDayNum r4
  let r6 ← pLit 'T' r5
  let (h, r7) ← pHour r6
  let r8 ← pLit ':' r7
  let (mi, r9) ← pMinute r8
  let r10 ← pLit ':' r9
  let (s, r11) ← pSecond r10
  let (off, r12) ← pTzOffset r11
  if r12 = [] then mkDatetime y mo d h mi s (some off) else none

/-- `datetime.strptime(t, "%Y-%m-%dT%H:%M:%SZ")` (trailing literal `Z`). -/
def strpIsoZsuffix (t : String) : Option PyDateTime := do
  let (y, r1) ← pYear4 t.data
  let r2 ← pLit '-' r1
  let (mo, r3) ← pMonthNum r2
  let r4 ← pLit '-' r3
  let (d, r5) ← pDayNum r4
  let r6 ← pLit 'T' r5
  let (h, r7) ← pHour r6
  let r8 ← pLit ':' r7
  let (mi, r9) ← pMinute r8
  let r10 ← pLit ':' r9
  let (s, r11) ← pSecond r10
  let r12 ← pLit 'Z' r11
  if r12 = [] then mkDatetime y mo d h mi s none else none

/-- Zero-padded two-digit decimal. -/
def pad2 (n : Nat) : String :=
  if n < 10 then "0" ++ toString n else toString n

/-- Zero-padded four-digit decimal. -/
def pad4 (n : Nat) : String :=
  if n < 10 then "000" ++ toString n
  else if n < 100 then "00" ++ toString n
  else if n < 1000 then "0" ++ toString n
  else toString n

/-- `datetime.isoformat()` for the datetimes produced above (microseconds are
zero, hence omitted; an aware datetime appends its `±HH:MM[:SS]` offset). -/
def pyIsoformat (dt : PyDateTime) : String :=
  pad4 dt.year ++ "-" ++ pad2 dt.month ++ "-" ++ pad2 dt.day ++ "T"
    ++ pad2 dt.hour ++ ":" ++ pad2 dt.minute ++ ":" ++ pad2 dt.second
    ++ match dt.tzSeconds with
      | none => ""
      | some off =>
        let a := off.natAbs
        (if off < 0 then "-" else "+") ++ pad2 (a / 3600) ++ ":" ++ pad2 (a % 3600 / 60)
          ++ (if a % 60 = 0 then "" else ":" ++ pad2 (a % 60))

/-- `ISO_DATE_RE.match(dt_str.strip()[:10])`: the first ten characters form
`\d{4}-\d{2}-\d{2}`. -/
def isoReMatch : List Char → Bool
  | [a, b, c, d, e, f, g, h, i, j] =>
    a.isDigit && b.isDigit && c.isDigit && d.isDigit && e = '-'
      && f.isDigit && g.isDigit && h = '-' && i.isDigit && j.isDigit
  | _ => false

/-- `_normalize_date` (`src/utils/scraping.py` lines 12-29): falsy input gives
`None`; a string whose stripped ten-char prefix already looks like an ISO date
is returned unchanged; otherwise the six `strptime` formats are tried in order
and the first parse is rendered with `isoformat()`; anything else gives
`None`. -/
def normalizeDate : Option String → Option String
  | none => none
  | some s =>
    if s = "" then none
    else
      let t := pyStrip s
      if isoReMatch (t.data.take 10) then some s
      else
        (strpYmdDash t <|> strpYmdSlash t <|> strpDayMonAbbrYear t
          <|> strpMonAbbrDayYear t <|> strpIsoWithTz t <|> strpIsoZsuffix t).map pyIsoformat

/-! ## `datetime.fromisoformat` model (CPython 3.10 semantics, as used by
`gather_news` for the time-window filter) -/

/-- The mandatory `YYYY-MM-DD` date prefix of `fromisoformat`. -/
def pfiDate : List Char → Option (Nat × Nat × Nat × List Char)
  | y1 :: y2 :: y3 :: y4 :: '-' :: m1 :: m2 :: '-' :: d1 :: d2 :: rest =>
    if y1.isDigit && y2.isDigit && y3.isDigit && y4.isDigit && m1.isDigit && m2.isDigit
        && d1.isDigit && d2.isDigit then
      some (1000 * digitVal y1 + 100 * digitVal y2 + 10 * digitVal y3 + digitVal y4,
        10 * digitVal m1 + digitVal m2, 10 * digitVal d1 + digitVal d2, rest)
    else none
  | _ => none

/-- Split a list at the first occurrence of `c` (Python `str.find`). -/
def splitAtFirst (c : Char) : List Char → Option (List Char × List Char)
  | [] => none
  | x :: xs =>
    if x = c then some ([], xs)
    else (splitAtFirst c xs).map fun p => (x :: p.1, p.2)

/-- The timezone split of `_parse_isoformat_time`: the first `-`, else the
first `+`, marks the offset; returns time part, sign, and offset digits. -/
def firstSignSplit (l : List Char) : Option (List Char × Char × List Char) :=
  match splitAtFirst '-' l with
  | some (a, b) => some (a, '-', b)
  | none =>
    match splitAtFirst '+' l with
    | some (a, b) => some (a, '+', b)
    | none => none

/-- CPython's `_parse_hh_mm_ss_ff`: `HH[:MM[:SS[.fff or .ffffff]]]`, each
component exactly two digits, consuming the whole input.  Returns
`(hour, minute, second, microsecond)`. -/
def parseHMSF (l : List Char) : Option (Nat × Nat × Nat × Nat) := do
  let (h, r1) ← pTwoDigits l
  match r1 with
  | [] => some (h, 0, 0, 0)
  | ':' :: r2 => do
    let (m, r3) ← pTwoDigits r2
    match r3 with
    | [] => some (h, m, 0, 0)
    | ':' :: r4 => do
      let (s, r5) ← pTwoDigits r4
      match r5 with
      | [] => some (h, m, s, 0)
      | '.' :: fr =>
        if fr.all Char.isDigit && fr.length = 3 then
          some (h, m, s, 1000 * fr.foldl (fun acc c => 10 * acc + digitVal c) 0)
        else if fr.all Char.isDigit && fr.length = 6 then
          some (h, m, s, fr.foldl (fun acc c => 10 * acc + digitVal c) 0)
        else none
      | _ => none
    | _ => none
  | _ => none

/-- `datetime.fromisoformat` (CPython ≤ 3.10, matching the `.replace("Z",
"+00:00")` workaround in `gather_news`): `YYYY-MM-DD` optionally followed by
any separator character and `HH[:MM[:SS[.fff/.ffffff]]][±HH:MM[:SS[.ffffff]]]`
(offset length 5, 8 or 15), all validated by the `datetime` constructor. -/
def pyFromIsoformat (s : String) : Option PyDateTime := do
  let (y, mo, d, rest) ← pfiDate s.data
  match rest with
  | [] => mkDatetime y mo d 0 0 0 none
  | _sep :: trest =>
    match firstSignSplit trest with
    | none => do
      let (h, mi, sec, _micro) ← parseHMSF trest
      mkDatetime y mo d h mi sec none
    | some (timePart, sign, tzPart) => do
      let (h, mi, sec, _micro) ← parseHMSF timePart
      if tzPart.length = 5 || tzPart.length = 8 || tzPart.length = 15 then do
        let (th, tm, ts, _tzmicro) ← parseHMSF tzPart
        let total : Int := (th * 3600 + tm * 60 + ts : Nat)
        mkDatetime y mo d h mi sec (some (if sign = '-' then -total else total))
      else none

/-! ## Canonical records and the deterministic validation of
`news_gatherer.py` -/

/-- A news item dict as handled by `_validate_items_local`, `gather_news`'s
filter and the enrichment merge.  `str | None` fields are `Option String`
(`some ""` is a present-but-empty, hence falsy, value). -/
structure Item where
  title : Option String := none
  url : Option String := none
  source : Option String := none
  summary : Option String := none
  typ : Option String := none
  published_at : Option String := none
  topics : List String := []
  relevance_reason : Option String := none
  event_start : Option String := none
  event_location : Option String := none
  author : Option String := none
deriving DecidableEq, Repr

/-- Scheme characters of `urllib.parse` (letters, digits, `+`, `-`, `.`). -/
def isSchemeChar (c : Char) : Bool :=
  c.isAlphanum || c = '+' || c = '-' || c = '.'

/-- Strip a leading `scheme:` as `urlsplit` does: the text before the first
colon must be non-empty and consist of scheme characters. -/
def stripScheme (l : List Char) : List Char :=
  match splitAtFirst ':' l with
  | some (pre, post) =>
    match pre with
    | [] => l
    | _ :: _ => if pre.all isSchemeChar then post else l
  | none => l

/-- `_domain(url)` (`news_gatherer.py` lines 195-199):
`urlparse(url).netloc.lower().split(":")[0]`, `None` on the `ValueError` that
`urlsplit` raises for unbalanced brackets in the netloc. -/
def domain (url : String) : Option String :=
  let l := stripScheme url.data
  let netloc :=
    if l.take 2 = ['/', '/'] then
      (l.drop 2).takeWhile fun c => c ≠ '/' && c ≠ '?' && c ≠ '#'
    else []
  if (netloc.contains '[' && !netloc.contains ']')
      || (netloc.contains ']' && !netloc.contains '[') then none
  else some (String.mk ((netloc.map Char.toLower).takeWhile (· ≠ ':')))

/-- The `source` computed by `_validate_items_local`:
`it.get("source") or _domain(url or "")`. -/
def computedSource (it : Item) : Option String :=
  pyOr it.source (domain (pyOrStr it.url ""))

/-- The required-field test of `_validate_items_local`:
`not (url and title and source)` continues, so a record is kept for further
processing iff `url`, `title` and the computed `source` are all truthy. -/
def validKeep (it : Item) : Bool :=
  truthyS it.url && truthyS it.title && truthyS (computedSource it)

/-- The dedup key of `_validate_items_local`:
`(url.strip(), title.strip())`. -/
def itemKey (it : Item) : String × String :=
  (pyStrip (it.url.getD ""), pyStrip (it.title.getD ""))

/-- The mutation applied before appending: `it["summary"] = it.get("summary")
or ""` and `it["source"] = source`. -/
def fixupItem (it : Item) : Item :=
  { it with summary := some (pyOrStr it.summary ""), source := computedSource it }

/-- The loop of `_validate_items_local` (`news_gatherer.py` lines 379-402):
falsy entries are skipped, records failing the required-field test are
dropped, the `(url.strip(), title.strip())` key is deduplicated against
`seen`, and surviving records are appended after the summary/source fixup. -/
def validateAux : List (Option Item) → List (String × String) → List Item
  | [], _ => []
  | none :: rest, seen => validateAux rest seen
  | some it :: rest, seen =>
    if validKeep it then
      if itemKey it ∈ seen then validateAux rest seen
      else fixupItem it :: validateAux rest (itemKey it :: seen)
    else validateAux rest seen

/-- `_validate_items_local(items)`. -/
def validateItemsLocal (items : List (Option Item)) : List Item :=
  validateAux items []

/-- Generic first-occurrence deduplication by key against a `seen`
accumulator (the semantics of both the `seen` set of `_validate_items_local`
and Python's `dict.fromkeys`). -/
def dedupByKeyAux {α κ : Type} [DecidableEq κ] (key : α → κ) (seen : List κ) :
    List α → List α
  | [] => []
  | x :: xs =>
    if key x ∈ seen then dedupByKeyAux key seen xs
    else x :: dedupByKeyAux key (key x :: seen) xs

/-- `list(dict.fromkeys(l))`: first-occurrence dedup preserving order. -/
def dedupFromKeys (l : List String) : List String :=
  dedupByKeyAux id [] l

/-! ## `_build_queries` (`news_gatherer.py` lines 91-135)

`config.start_date_iso`, `config.source_domains` and `config.resource_links`
are ambient configuration read inside the function; they appear here as
explicit parameters.  The `country` and `days_back` parameters are accepted
and ignored exactly as in the source. -/

/-- The query list before dedup/cap: domain-restricted, broad and
event-specific variants per keyword, then one query per priority resource
link. -/
def buildQueriesRaw (keywords : List String) (startDateIso : String)
    (sourceDomains resourceLinks : List String) : List String :=
  let timeFilter := "after:" ++ startDateIso
  let base := keywords.flatMap fun kw => sourceDomains.map fun dom =>
    "(\"" ++ kw ++ "\" OR \"" ++ kw ++ " update\") " ++ timeFilter ++ " site:." ++ dom
  let broad := keywords.flatMap fun kw =>
    ["\"" ++ kw ++ "\" " ++ timeFilter ++ " news",
     "\"" ++ kw ++ "\" " ++ timeFilter ++ " policy",
     "\"" ++ kw ++ "\" " ++ timeFilter ++ " event",
     "\"" ++ kw ++ "\" " ++ timeFilter ++ " regulation"]
  let events := keywords.flatMap fun kw =>
    ["\"" ++ kw ++ "\" conference " ++ timeFilter,
     "\"" ++ kw ++ "\" webinar " ++ timeFilter,
     "\"" ++ kw ++ "\" hearing " ++ timeFilter,
     "\"" ++ kw ++ "\" summit " ++ timeFilter]
  base ++ broad ++ events ++ (resourceLinks.map fun link => "site:" ++ link ++ " " ++ timeFilter)

/-- `_build_queries(keywords, country, days_back)`:
`list(dict.fromkeys(queries))[:50]`. -/
def buildQueries (keywords : List String) (country : String) (daysBack : Nat)
    (startDateIso : String) (sourceDomains resourceLinks : List String) : List String :=
  (dedupFromKeys (buildQueriesRaw keywords startDateIso sourceDomains resourceLinks)).take 50

/-! ## The time-window filter of `gather_news` (`news_gatherer.py` lines
586-604) -/

/-- `datetime.date()` of a parsed value, as an ordered triple. -/
def dateTriple (dt : PyDateTime) : Nat × Nat × Nat :=
  (dt.year, dt.month, dt.day)

/-- Lexicographic strict order on dates (Python `date < date`). -/
def dateLtB (a b : Nat × Nat × Nat) : Bool :=
  a.1 < b.1 || (a.1 = b.1 && (a.2.1 < b.2.1 || (a.2.1 = b.2.1 && a.2.2 < b.2.2)))

/-- `s.replace("Z", "+00:00")` (every occurrence). -/
def replaceZ (s : String) : String :=
  String.mk (s.data.flatMap fun c => if c = 'Z' then "+00:00".data else [c])

/-- The per-item decision of the filter loop: `keep` starts true and flips to
false only when the item has a truthy `published_at`, a cutoff exists, the
date string parses, and its date is strictly before the cutoff's date; parse
failures leave `keep` untouched. -/
def keepInWindow (cutoff : Option PyDateTime) (it : Item) : Bool :=
  match it.published_at, cutoff with
  | none, _ => true
  | some _, none => true
  | some s, some c =>
    if s = "" then true
    else
      match pyFromIsoformat (replaceZ s) with
      | some d => !dateLtB (dateTriple d) (dateTriple c)
      | none => true

/-- The time-window filter of `gather_news`: the cutoff is
`datetime.fromisoformat(config.start_date_iso)` (or `None` when that raises)
and each candidate is kept or dropped by `keepInWindow`. -/
def timeWindowFilter (startDateIso : String) (candidates : List Item) : List Item :=
  let cutoff := pyFromIsoformat startDateIso
  candidates.filter (keepInWindow cutoff)

/-! ## The enrichment merge of `gather_news` (`news_gatherer.py` lines
613-644)

`scrape_url` is a network call; its result dict is the `Scraped` structure
(`text` is always a string, empty on failure; `title`/`published_at` may be
`None`; `authors` may be empty). -/

/-- The dict returned by `scrape_url` (`src/utils/scraping.py` lines 102-108). -/
structure Scraped where
  text : String := ""
  title : Option String := none
  published_at : Option String := none
  authors : List String := []
deriving DecidableEq, Repr

/-- The enriched item dict built inside `gather_news`'s loop. -/
structure EnrichedItem where
  title : Option String
  url : String
  source : Option String
  summary : String
  typ : String
  published_at : Option String
  topics : List String
  relevance_reason : Option String
  event_start : Option String
  event_location : Option String
  author : Option String
  scraped_text : String
  scraped_title : Option String
deriving DecidableEq, Repr

/-- One iteration of the enrichment loop for an item with truthy `url`:
every `item.get(f) or fallback` merge of lines 623-639. -/
def enrichOne (item : Item) (scraped : Scraped) : EnrichedItem :=
  { title := pyOr item.title scraped.title
    url := item.url.getD ""
    source := pyOr item.source (domain (item.url.getD ""))
    summary := pyOrStr item.summary
      (if scraped.text ≠ "" then scraped.text.take 300 else "")
    typ := pyOrStr item.typ "news"
    published_at := pyOr item.published_at scraped.published_at
    topics := if item.topics ≠ [] then item.topics else []
    relevance_reason := item.relevance_reason
    event_start := item.event_start
    event_location := item.event_location
    author := pyOr item.author
      (if scraped.authors ≠ [] then some (String.intercalate ", " scraped.authors) else none)
    scraped_text := if scraped.text ≠ "" then scraped.text else ""
    scraped_title := scraped.title }

/-! ## Concrete fixtures used by witnesses -/

/-- The step record registered for `news_gathering` by
`_initialize_workflow`. -/
def newsStepRec : StepRec :=
  { name := "news_gathering", description := "Gather latest news articles and events"
    status := .pending, attempts := 0, maxAttempts := 3, error := none, result := none }

/-- An executor that fails twice with retriable errors and then succeeds. -/
def failTwiceExec : Nat → ExecOutcome := fun n =>
  match n with
  | 1 => .exn "boom one"
  | 2 => .exn "boom two"
  | _ => .ret (.pyStr "ok")

/-- An executor that raises a non-retriable (API-key) error. -/
def apiKeyFailExec : Nat → ExecOutcome := fun _ =>
  .exn "Invalid_API_Key detected"

/-- A record with all required fields and an empty summary. -/
def itemComplete : Item :=
  { title := some "T", url := some "https://example.com/a"
    source := some "example.com", summary := some "" }

/-- A record missing its title. -/
def itemNoTitle : Item :=
  { url := some "https://example.com/b", source := some "example.com"
    summary := some "x" }

/-- A record missing its source but with a URL whose domain is derivable. -/
def itemNoSource : Item :=
  { title := some "T", url := some "https://example.com/a", summary := some "" }

/-- A record whose url carries surrounding whitespace. -/
def itemDupSpaced : Item :=
  { title := some "T", url := some " https://a.com/x ", source := some "a.com"
    summary := some "s" }

/-- The same record with the whitespace stripped: a distinct `(url, title)`
pair that collapses to the same dedup key. -/
def itemDupStripped : Item :=
  { title := some "T", url := some "https://a.com/x", source := some "a.com"
    summary := some "s" }

/-- An unrelated valid record. -/
def itemOther : Item :=
  { title := some "U", url := some "https://b.com/y", source := some "b.com"
    summary := some "s" }

/-- A candidate dated 20 days before 2024-01-29 (before a 14-day cutoff). -/
def itemOld : Item :=
  { title := some "Old", url := some "https://o.com/1"
    published_at := some "2024-01-09" }

/-- A candidate with no publication date. -/
def itemUndated : Item :=
  { title := some "New", url := some "https://n.com/1" }

/-- A candidate whose date string does not parse. -/
def itemBadDate : Item :=
  { title := some "Bad", url := some "https://b.com/1"
    published_at := some "whenever" }

/-! ## Helper lemmas: step lookups across state updates -/

theorem find_updateSteps (steps : List (String × StepRec)) (name : String)
    (f : StepRec → StepRec) :
    (updateSteps steps name f).find? (fun p => p.1 = name) =
      ((steps.find? (fun p => p.1 = name)).map fun p => (p.1, f p.2)) := by
  induction steps with
  | nil => rfl
  | cons p rest ih =>
    by_cases h : p.1 = name
    · simp [updateSteps, List.find?, h]
    · simpa [updateSteps, List.find?, h] using ih

theorem hasStep_eq_isSome (st : WorkflowState) (name : String) :
    hasStep st name = (st.steps.find? (fun p => p.1 = name)).isSome := by
  unfold hasStep
  induction st.steps with
  | nil => rfl
  | cons p rest ih =>
    by_cases h : p.1 = name
    · simp [List.any_cons, List.find?, h]
    · simpa [List.any_cons, List.find?, h] using ih

theorem lookup_none_of_not_hasStep (st : WorkflowState) (name : String)
    (h : hasStep st name = false) : lookupStep st name = none := by
  have hs := hasStep_eq_isSome st name
  rw [h] at hs
  unfold lookupStep
  cases hf : st.steps.find? (fun p => p.1 = name) with
  | none => rfl
  | some p => rw [hf] at hs; simp at hs

theorem lookupStep_startStep (st : WorkflowState) (name : String) (attempt : Nat) :
    lookupStep (startStep st name attempt) name =
      (lookupStep st name).map fun r => { r with status := .running, attempts := attempt } := by
  unfold startStep
  by_cases h : hasStep st name = true
  · simp only [if_pos h, lookupStep, find_updateSteps, Option.map_map]
    rfl
  · have hn := lookup_none_of_not_hasStep st name (by simpa using h)
    simp [h, hn]

theorem lookupStep_retryStep (st : WorkflowState) (name : String) :
    lookupStep (retryStep st name) name =
      (lookupStep st name).map fun r => { r with status := .retrying } := by
  unfold retryStep
  by_cases h : hasStep st name = true
  · simp only [if_pos h, lookupStep, find_updateSteps, Option.map_map]
    rfl
  · have hn := lookup_none_of_not_hasStep st name (by simpa using h)
    simp [h, hn]

theorem lookupStep_completeStep_ok (st : WorkflowState) (name : String)
    (result : Option PyResult) :
    lookupStep (completeStep st name result none) name =
      (lookupStep st name).map fun r => { r with status := .success, result := result } := by
  unfold completeStep
  by_cases h : hasStep st name = true
  · simp only [if_pos h, truthyS, Bool.false_eq_true, if_false, lookupStep,
      find_updateSteps, Option.map_map]
    rfl
  · have hn := lookup_none_of_not_hasStep st name (by simpa using h)
    simp [h, hn]

theorem lookupStep_completeStep_err (st : WorkflowState) (name : String) (e : String)
    (he : e ≠ "") :
    lookupStep (completeStep st name none (some e)) name =
      (lookupStep st name).map fun r => { r with status := .failed, error := some e } := by
  unfold completeStep
  by_cases h : hasStep st name = true
  · have ht : truthyS (some e) = true := by simp [truthyS, he]
    simp only [if_pos h, ht, if_true, lookupStep, find_updateSteps, Option.map_map]
    rfl
  · have hn := lookup_none_of_not_hasStep st name (by simpa using h)
    simp [h, hn]

/-- The error message built by `execute_with_retry` is never empty (it always
contains the literal `" failed: "`). -/
theorem errorMsg_ne_empty (agentName m : String) :
    agentName ++ " failed: " ++ m ≠ "" := by
  intro h
  have hl := congrArg String.length h
  rw [String.length_append, String.length_append] at hl
  have h9 : (" failed: " : String).length = 9 := rfl
  have h0 : ("" : String).length = 0 := rfl
  rw [h9, h0] at hl
  omega

/-! ## Helper lemmas: one-step unfoldings of the retry loop -/

theorem execLoop_exn_retry (executor : Nat → ExecOutcome) (agentName stepName : String)
    (maxRetries baseDelay : Nat) (contOnFail : Bool) (fuel attempt : Nat)
    (st : WorkflowState) (sleeps : List Nat) (m : String)
    (he : executor attempt = .exn m)
    (hcond : (attempt < maxRetries && shouldRetry attempt maxRetries m) = true) :
    execLoop executor agentName stepName maxRetries baseDelay contOnFail
        (fuel + 1) attempt st sleeps =
      execLoop executor agentName stepName maxRetries baseDelay contOnFail
        fuel (attempt + 1) (retryStep (startStep st stepName attempt) stepName)
        (sleeps ++ [getDelay attempt baseDelay]) := by
  simp only [execLoop]
  rw [he]
  simp [hcond]

theorem execLoop_exn_stop (executor : Nat → ExecOutcome) (agentName stepName : String)
    (maxRetries baseDelay : Nat) (contOnFail : Bool) (fuel attempt : Nat)
    (st : WorkflowState) (sleeps : List Nat) (m : String)
    (he : executor attempt = .exn m)
    (hcond : (attempt < maxRetries && shouldRetry attempt maxRetries m) = false) :
    execLoop executor agentName stepName maxRetries baseDelay contOnFail
        (fuel + 1) attempt st sleeps =
      ⟨none,
        completeStep (startStep st stepName attempt) stepName none
          (some (agentName ++ " failed: " ++ m)),
        sleeps, !contOnFail⟩ := by
  simp only [execLoop]
  rw [he]
  simp only [hcond, Bool.false_eq_true, if_false]
  cases contOnFail <;> simp

theorem execLoop_ret_valid (executor : Nat → ExecOutcome) (agentName stepName : String)
    (maxRetries baseDelay : Nat) (contOnFail : Bool) (fuel attempt : Nat)
    (st : WorkflowState) (sleeps : List Nat) (v : PyResult)
    (he : executor attempt = .ret v) (hv : isValidResult v = true) :
    execLoop executor agentName stepName maxRetries baseDelay contOnFail
        (fuel + 1) attempt st sleeps =
      ⟨some v, completeStep (startStep st stepName attempt) stepName (some v) none,
        sleeps, false⟩ := by
  simp only [execLoop]
  rw [he]
  simp [hv]

/-! ## Claim C2: retry with exponential backoff -/

/-- C2: with `maxRetries = 3`, a step function that raises retriable errors
on attempts 1 and 2 and returns a valid result on attempt 3 makes
`execute_with_retry` return that result, record step status `success` with
`attempts = 3`, re-raise nothing, and sleep exactly twice, for
`baseDelay * 1` and then `baseDelay * 2`. -/
theorem c2_retry_backoff_scenario
    (executor : Nat → ExecOutcome) (m1 m2 : String) (v : PyResult)
    (agentName stepName : String) (base : Nat) (cont : Bool)
    (st : WorkflowState) (r0 : StepRec)
    (h1 : executor 1 = .exn m1) (hm1 : isNonRetriableMsg m1 = false)
    (h2 : executor 2 = .exn m2) (hm2 : isNonRetriableMsg m2 = false)
    (h3 : executor 3 = .ret v) (hv : isValidResult v = true)
    (hstep : lookupStep st stepName = some r0) :
    (executeWithRetry executor agentName stepName 3 base cont st).ret = some v ∧
    (executeWithRetry executor agentName stepName 3 base cont st).sleeps =
      [base * 1, base * 2] ∧
    (executeWithRetry executor agentName stepName 3 base cont st).raised = false ∧
    ∃ r, lookupStep (executeWithRetry executor agentName stepName 3 base cont st).st
        stepName = some r ∧
      r.status = StepStatus.success ∧ r.attempts = 3 := by
  have hsr1 : (1 < 3 && shouldRetry 1 3 m1) = true := by simp [shouldRetry, hm1]
  have hsr2 : (2 < 3 && shouldRetry 2 3 m2) = true := by simp [shouldRetry, hm2]
  have e0 : executeWithRetry executor agentName stepName 3 base cont st =
      execLoop executor agentName stepName 3 base cont 3 1 st [] := rfl
  have e1 : execLoop executor agentName stepName 3 base cont 3 1 st [] =
      execLoop executor agentName stepName 3 base cont 2 2
        (retryStep (startStep st stepName 1) stepName) [getDelay 1 base] :=
    execLoop_exn_retry executor agentName stepName 3 base cont 2 1 st [] m1 h1 hsr1
  have e2 : execLoop executor agentName stepName 3 base cont 2 2
        (retryStep (startStep st stepName 1) stepName) [getDelay 1 base] =
      execLoop executor agentName stepName 3 base cont 1 3
        (retryStep (startStep (retryStep (startStep st stepName 1) stepName)
          stepName 2) stepName)
        [getDelay 1 base, getDelay 2 base] :=
    execLoop_exn_retry executor agentName stepName 3 base cont 1 2 _ _ m2 h2 hsr2
  have e3 : execLoop executor agentName stepName 3 base cont 1 3
        (retryStep (startStep (retryStep (startStep st stepName 1) stepName)
          stepName 2) stepName)
        [getDelay 1 base, getDelay 2 base] =
      ⟨some v,
        completeStep (startStep (retryStep (startStep (retryStep
          (startStep st stepName 1) stepName) stepName 2) stepName) stepName 3)
          stepName (some v) none,
        [getDelay 1 base, getDelay 2 base], false⟩ :=
    execLoop_ret_valid executor agentName stepName 3 base cont 0 3 _ _ v h3 hv
  have hres := (e0.trans e1).trans (e2.trans e3)
  rw [hres]
  refine ⟨rfl, ?_, rfl, ?_⟩
  · simp [getDelay]
  · simp only [lookupStep_completeStep_ok, lookupStep_startStep, lookupStep_retryStep,
      hstep, Option.map_some']
    exact ⟨_, rfl, rfl, rfl⟩

/-- Witness for C2: the concrete fail-twice executor against the supervisor's
initial state with `baseDelay = 5`. -/
theorem c2_retry_backoff_scenario_witness :
    (executeWithRetry failTwiceExec "News Gathering Agent" "news_gathering" 3 5 true
      initSupervisorState).ret = some (.pyStr "ok") ∧
    (executeWithRetry failTwiceExec "News Gathering Agent" "news_gathering" 3 5 true
      initSupervisorState).sleeps = [5 * 1, 5 * 2] ∧
    (executeWithRetry failTwiceExec "News Gathering Agent" "news_gathering" 3 5 true
      initSupervisorState).raised = false ∧
    ∃ r, lookupStep (executeWithRetry failTwiceExec "News Gathering Agent"
        "news_gathering" 3 5 true initSupervisorState).st "news_gathering" = some r ∧
      r.status = StepStatus.success ∧ r.attempts = 3 :=
  c2_retry_backoff_scenario failTwiceExec "boom one" "boom two" (.pyStr "ok")
    "News Gathering Agent" "news_gathering" 5 true initSupervisorState newsStepRec
    rfl (by decide) rfl (by decide) rfl (by decide) (by decide)

/-! ## Claim C3: non-retriable errors short-circuit the retry loop -/

/-- C3: when the first attempt raises an error whose message contains one of
`authentication`/`authorization`/`invalid_api_key` (case-insensitively),
`execute_with_retry` marks the step failed immediately: one attempt, no
backoff sleeps, the error recorded, regardless of the remaining retry
budget. -/
theorem c3_nonretriable_short_circuit
    (executor : Nat → ExecOutcome) (m : String) (agentName stepName : String)
    (maxRetries base : Nat) (cont : Bool) (st : WorkflowState) (r0 : StepRec)
    (h1 : executor 1 = .exn m) (hm : isNonRetriableMsg m = true)
    (hmax : 1 ≤ maxRetries) (hstep : lookupStep st stepName = some r0) :
    (executeWithRetry executor agentName stepName maxRetries base cont st).ret = none ∧
    (executeWithRetry executor agentName stepName maxRetries base cont st).sleeps = [] ∧
    (executeWithRetry executor agentName stepName maxRetries base cont st).raised =
      !cont ∧
    ∃ r, lookupStep (executeWithRetry executor agentName stepName maxRetries base cont
        st).st stepName = some r ∧
      r.status = StepStatus.failed ∧ r.attempts = 1 ∧
      r.error = some (agentName ++ " failed: " ++ m) := by
  obtain ⟨k, rfl⟩ : ∃ k, maxRetries = k + 1 := ⟨maxRetries - 1, by omega⟩
  have hcond : (1 < k + 1 && shouldRetry 1 (k + 1) m) = false := by
    simp [shouldRetry, hm]
  have e0 : executeWithRetry executor agentName stepName (k + 1) base cont st =
      execLoop executor agentName stepName (k + 1) base cont (k + 1) 1 st [] := rfl
  have e1 : execLoop executor agentName stepName (k + 1) base cont (k + 1) 1 st [] =
      ⟨none,
        completeStep (startStep st stepName 1) stepName none
          (some (agentName ++ " failed: " ++ m)),
        [], !cont⟩ :=
    execLoop_exn_stop executor agentName stepName (k + 1) base cont k 1 st [] m h1 hcond
  rw [e0.trans e1]
  refine ⟨rfl, rfl, rfl, ?_⟩
  simp only [lookupStep_completeStep_err _ _ _ (errorMsg_ne_empty agentName m),
    lookupStep_startStep, hstep, Option.map_some']
  exact ⟨_, rfl, rfl, rfl, rfl⟩

/-- Witness for C3: a mixed-case `Invalid_API_Key` error with a retry budget
of 5 fails on the first attempt with no sleeps. -/
theorem c3_nonretriable_short_circuit_witness :
    (executeWithRetry apiKeyFailExec "News Gathering Agent" "news_gathering" 5 5 true
      initSupervisorState).ret = none ∧
    (executeWithRetry apiKeyFailExec "News Gathering Agent" "news_gathering" 5 5 true
      initSupervisorState).sleeps = [] ∧
    (executeWithRetry apiKeyFailExec "News Gathering Agent" "news_gathering" 5 5 true
      initSupervisorState).raised = !true ∧
    ∃ r, lookupStep (executeWithRetry apiKeyFailExec "News Gathering Agent"
        "news_gathering" 5 5 true initSupervisorState).st "news_gathering" = some r ∧
      r.status = StepStatus.failed ∧ r.attempts = 1 ∧
      r.error = some ("News Gathering Agent" ++ " failed: " ++ "Invalid_API_Key detected") :=
  c3_nonretriable_short_circuit apiKeyFailExec "Invalid_API_Key detected"
    "News Gathering Agent" "news_gathering" 5 5 true initSupervisorState newsStepRec
    rfl (by decide) (by decide) (by decide)

/-! ## Claim C10: totality of `get_summary` -/

/-- C10: `WorkflowState.get_summary` is total: with no registered steps
(`total_steps = 0`) the summary's `success_rate` is `0` rather than a
division-by-zero error, and with `total_steps > 0` it equals
`completed_steps / total_steps * 100`. -/
theorem c10_get_summary_total (st : WorkflowState) :
    (st.totalSteps = 0 → (getSummary st).successRate = 0) ∧
    (0 < st.totalSteps →
      (getSummary st).successRate = (st.completedSteps : ℚ) / (st.totalSteps : ℚ) * 100) := by
  constructor
  · intro h
    simp [getSummary, h]
  · intro h
    simp [getSummary, h]

/-- Witness for C10: the freshly-constructed state has no steps and
success rate `0`; the supervisor's initialized state has four steps and the
quotient formula applies. -/
theorem c10_get_summary_total_witness :
    (getSummary WorkflowState.initial).successRate = 0 ∧
    0 < initSupervisorState.totalSteps ∧
    (getSummary initSupervisorState).successRate =
      (initSupervisorState.completedSteps : ℚ) / (initSupervisorState.totalSteps : ℚ) * 100 :=
  ⟨(c10_get_summary_total WorkflowState.initial).1 rfl, by decide,
    (c10_get_summary_total initSupervisorState).2 (by decide)⟩

/-! ## Claim C1: workflow status derivation -/

/-- C1 counterexample: when content generation is skipped for lack of input
(both upstream results empty), `run_workflow` derives status `failed`, not
`partial` — the skip condition itself forces all upstream results to be
falsy. -/
theorem c1_skip_counterexample :
    contentGenSkips none none = true ∧
    deriveWorkflowStatus (runContentGenerationResult none none none) none none =
      WorkflowStatus.failed ∧
    WorkflowStatus.failed ≠ WorkflowStatus.part := by
  refine ⟨rfl, rfl, ?_⟩
  decide

/-- C1 (amended): the overall status at the end of `run_workflow` is derived:
`success` when content generation produced a truthy result, `partial` when it
did not but news gathering or social monitoring did, and `failed` when
nothing did; when content generation is skipped due to no input (both
upstream results falsy) its result is `None` and the derived status is
therefore `failed`. -/
theorem c1_status_derivation :
    (∀ content news social : Option PyResult,
      (optTruthy content = true → deriveWorkflowStatus content news social = .success) ∧
      (optTruthy content = false → (optTruthy news || optTruthy social) = true →
        deriveWorkflowStatus content news social = .part) ∧
      (optTruthy content = false → optTruthy news = false → optTruthy social = false →
        deriveWorkflowStatus content news social = .failed)) ∧
    (∀ news social execResult,
      contentGenSkips news social = true →
      deriveWorkflowStatus (runContentGenerationResult news social execResult) news social =
        .failed) := by
  constructor
  · intro content news social
    refine ⟨fun hc => ?_, fun hc hns => ?_, fun hc hn hs => ?_⟩
    · simp [deriveWorkflowStatus, hc]
    · simp [deriveWorkflowStatus, hc, hns]
    · simp [deriveWorkflowStatus, hc, hn, hs]
  · intro news social execResult hskip
    have hns : optTruthy news = false ∧ optTruthy social = false := by
      simpa [contentGenSkips] using hskip
    have hnone : optTruthy none = false := rfl
    simp [runContentGenerationResult, hskip, deriveWorkflowStatus, hnone, hns.1, hns.2]

/-- Witness for C1: each branch of the derivation at concrete results, and
the skip scenario. -/
theorem c1_status_derivation_witness :
    deriveWorkflowStatus (some (.pyDict [("content", "x")])) none none =
      WorkflowStatus.success ∧
    deriveWorkflowStatus none (some (.pyDict [("news", "x")])) none =
      WorkflowStatus.part ∧
    deriveWorkflowStatus none none none = WorkflowStatus.failed ∧
    deriveWorkflowStatus (runContentGenerationResult none none (some .pyOther)) none none =
      WorkflowStatus.failed := by
  obtain ⟨hmain, hskip⟩ := c1_status_derivation
  exact ⟨(hmain _ _ _).1 (by decide), (hmain _ _ _).2.1 (by decide) (by decide),
    (hmain _ _ _).2.2 (by decide) (by decide) (by decide), hskip _ _ _ (by decide)⟩

/-! ## Claim C4: date normalization -/

/-- C4 counterexample: `_normalize_date("2024/01/15")` is the ISO *datetime*
`"2024-01-15T00:00:00"` (via `strptime(...).isoformat()`), not the bare ISO
date `"2024-01-15"` claimed. -/
theorem c4_normalize_date_counterexample :
    normalizeDate (some "2024/01/15") ≠ some "2024-01-15" ∧
    normalizeDate (some "2024/01/15") = some "2024-01-15T00:00:00" := by
  refine ⟨?_, rfl⟩
  decide

/-- C4 (amended): `_normalize_date` maps `"2024-01-15"` to itself (the
ISO-regex fast path), maps `"2024/01/15"` and `"Jan 15, 2024"` to the ISO
datetime `"2024-01-15T00:00:00"` at midnight of that date, and maps the
unparseable `"whenever"` to `None` without raising. -/
theorem c4_normalize_date :
    normalizeDate (some "2024-01-15") = some "2024-01-15" ∧
    normalizeDate (some "2024/01/15") = some "2024-01-15T00:00:00" ∧
    normalizeDate (some "Jan 15, 2024") = some "2024-01-15T00:00:00" ∧
    normalizeDate (some "whenever") = none :=
  ⟨rfl, rfl, rfl, rfl⟩

/-! ## Claim C7: enrichment is an additive merge -/

/-- C7: the enrichment merge of `gather_news` fills `title`, `published_at`
and `author` from the scraped page only when the record's own value is falsy
(absent or empty), never overwrites a pre-populated value, and always sets
`scraped_text` to the scraped text (the empty string on fetch failure). -/
theorem c7_enrichment_additive (item : Item) (scraped : Scraped) :
    (∀ a, item.author = some a → a ≠ "" →
      (enrichOne item scraped).author = some a) ∧
    (∀ t, item.title = some t → t ≠ "" →
      (enrichOne item scraped).title = some t) ∧
    (∀ p, item.published_at = some p → p ≠ "" →
      (enrichOne item scraped).published_at = some p) ∧
    (truthyS item.title = false → (enrichOne item scraped).title = scraped.title) ∧
    (truthyS item.published_at = false →
      (enrichOne item scraped).published_at = scraped.published_at) ∧
    (truthyS item.author = false → (enrichOne item scraped).author =
      (if scraped.authors ≠ [] then some (String.intercalate ", " scraped.authors)
        else none)) ∧
    (enrichOne item scraped).scraped_text = scraped.text := by
  refine ⟨?_, ?_, ?_, ?_, ?_, ?_, ?_⟩
  · intro a ha hne
    simp [enrichOne, pyOr, truthyS, ha, hne]
  · intro t ht hne
    simp [enrichOne, pyOr, truthyS, ht, hne]
  · intro p hp hne
    simp [enrichOne, pyOr, truthyS, hp, hne]
  · intro h
    simp [enrichOne, pyOr, h]
  · intro h
    simp [enrichOne, pyOr, h]
  · intro h
    simp [enrichOne, pyOr, h]
  · by_cases h : scraped.text = "" <;> simp [enrichOne, h]

/-- Witness for C7: a pre-populated author survives a page that scrapes a
different author; falsy fields are filled; `scraped_text` is set. -/
theorem c7_enrichment_additive_witness :
    (enrichOne
      { title := some "Kept title", author := some "Jane Doe", summary := some "s" }
      { text := "body text", title := some "Scraped title"
        published_at := some "2023-05-05", authors := ["Bob"] }).author =
      some "Jane Doe" ∧
    (enrichOne
      { title := some "Kept title", author := some "Jane Doe", summary := some "s" }
      { text := "body text", title := some "Scraped title"
        published_at := some "2023-05-05", authors := ["Bob"] }).title =
      some "Kept title" ∧
    (enrichOne
      { title := some "Kept title", author := some "Jane Doe", summary := some "s" }
      { text := "body text", title := some "Scraped title"
        published_at := some "2023-05-05", authors := ["Bob"] }).published_at =
      some "2023-05-05" ∧
    (enrichOne
      { title := some "Kept title", author := some "Jane Doe", summary := some "s" }
      { text := "body text", title := some "Scraped title"
        published_at := some "2023-05-05", authors := ["Bob"] }).scraped_text =
      "body text" := by
  obtain ⟨hauth, htitle, hpub, _, hpubFill, _, htext⟩ :=
    c7_enrichment_additive
      { title := some "Kept title", author := some "Jane Doe", summary := some "s" }
      { text := "body text", title := some "Scraped title"
        published_at := some "2023-05-05", authors := ["Bob"] }
  exact ⟨hauth "Jane Doe" rfl (by decide), htitle "Kept title" rfl (by decide),
    hpubFill rfl, htext⟩

/-! ## Helper lemmas: first-occurrence key-based deduplication -/

theorem mem_of_mem_dedupByKeyAux {α κ : Type} [DecidableEq κ] (key : α → κ)
    (seen : List κ) (l : List α) (a : α) (h : a ∈ dedupByKeyAux key seen l) :
    a ∈ l ∧ key a ∉ seen := by
  induction l generalizing seen with
  | nil => simp [dedupByKeyAux] at h
  | cons x xs ih =>
    by_cases hx : key x ∈ seen
    · simp only [dedupByKeyAux, if_pos hx] at h
      obtain ⟨h1, h2⟩ := ih seen h
      exact ⟨List.mem_cons_of_mem _ h1, h2⟩
    · simp only [dedupByKeyAux, if_neg hx] at h
      rcases List.mem_cons.mp h with rfl | h'
      · exact ⟨List.mem_cons_self _ _, hx⟩
      · obtain ⟨h1, h2⟩ := ih (key x :: seen) h'
        exact ⟨List.mem_cons_of_mem _ h1, fun hs => h2 (List.mem_cons_of_mem _ hs)⟩

theorem keys_nodup_dedupByKeyAux {α κ : Type} [DecidableEq κ] (key : α → κ)
    (seen : List κ) (l : List α) :
    (dedupByKeyAux key seen l).Pairwise (fun a b => key a ≠ key b) := by
  induction l generalizing seen with
  | nil => simp [dedupByKeyAux]
  | cons x xs ih =>
    by_cases hx : key x ∈ seen
    · simpa only [dedupByKeyAux, if_pos hx] using ih seen
    · simp only [dedupByKeyAux, if_neg hx]
      refine List.Pairwise.cons ?_ (ih (key x :: seen))
      intro b hb hkeq
      have h2 := (mem_of_mem_dedupByKeyAux key _ _ b hb).2
      exact h2 (hkeq ▸ List.mem_cons_self _ _)

theorem sublist_dedupByKeyAux {α κ : Type} [DecidableEq κ] (key : α → κ)
    (seen : List κ) (l : List α) :
    (dedupByKeyAux key seen l).Sublist l := by
  induction l generalizing seen with
  | nil => simp [dedupByKeyAux]
  | cons x xs ih =>
    by_cases hx : key x ∈ seen
    · simp only [dedupByKeyAux, if_pos hx]
      exact (ih seen).trans (List.sublist_cons_self x xs)
    · simp only [dedupByKeyAux, if_neg hx]
      exact List.Sublist.cons₂ x (ih (key x :: seen))

theorem exists_key_mem_dedupByKeyAux {α κ : Type} [DecidableEq κ] (key : α → κ)
    (seen : List κ) (l : List α) (a : α) (ha : a ∈ l) (hseen : key a ∉ seen) :
    ∃ b ∈ dedupByKeyAux key seen l, key b = key a := by
  induction l generalizing seen with
  | nil => cases ha
  | cons x xs ih =>
    by_cases hx : key x ∈ seen
    · rcases List.mem_cons.mp ha with rfl | ha'
      · exact absurd hx hseen
      · simpa only [dedupByKeyAux, if_pos hx] using ih seen ha' hseen
    · simp only [dedupByKeyAux, if_neg hx]
      rcases List.mem_cons.mp ha with rfl | ha'
      · exact ⟨a, List.mem_cons_self _ _, rfl⟩
      · by_cases hk : key a = key x
        · exact ⟨x, List.mem_cons_self _ _, hk.symm⟩
        · obtain ⟨b, hb, hkb⟩ := ih (key x :: seen) ha' (by
            intro hmem
            rcases List.mem_cons.mp hmem with h | h
            · exact hk h
            · exact hseen h)
          exact ⟨b, List.mem_cons_of_mem _ hb, hkb⟩

theorem find_first_dedupByKeyAux {α κ : Type} [DecidableEq κ] (key : α → κ)
    (seen : List κ) (l : List α) (a : α) (h : a ∈ dedupByKeyAux key seen l) :
    l.find? (fun x => decide (key x = key a)) = some a := by
  induction l generalizing seen with
  | nil => simp [dedupByKeyAux] at h
  | cons x xs ih =>
    by_cases hx : key x ∈ seen
    · simp only [dedupByKeyAux, if_pos hx] at h
      have hka := (mem_of_mem_dedupByKeyAux key seen xs a h).2
      have hne : ¬ (key x = key a) := fun he => hka (he ▸ hx)
      rw [List.find?_cons_of_neg _ (by simp [hne])]
      exact ih seen h
    · simp only [dedupByKeyAux, if_neg hx] at h
      rcases List.mem_cons.mp h with rfl | h'
      · rw [List.find?_cons_of_pos _ (by simp)]
      · have hmem := mem_of_mem_dedupByKeyAux key (key x :: seen) xs a h'
        have hne : ¬ (key x = key a) := fun he =>
          hmem.2 (he ▸ List.mem_cons_self _ _)
        rw [List.find?_cons_of_neg _ (by simp [hne])]
        exact ih (key x :: seen) h'

theorem pairwise_indexOf_dedupByKeyAux_id (seen : List String) (l : List String) :
    (dedupByKeyAux id seen l).Pairwise (fun a b => l.indexOf a < l.indexOf b) := by
  induction l generalizing seen with
  | nil => simp [dedupByKeyAux]
  | cons x xs ih =>
    by_cases hx : x ∈ seen
    · simp only [dedupByKeyAux, id_eq, if_pos hx]
      refine (ih seen).imp_of_mem ?_
      intro a b ha hb hr
      have hax : a ≠ x := fun he =>
        (mem_of_mem_dedupByKeyAux id seen xs a ha).2 (by simpa [he] using hx)
      have hbx : b ≠ x := fun he =>
        (mem_of_mem_dedupByKeyAux id seen xs b hb).2 (by simpa [he] using hx)
      rw [List.indexOf_cons_ne _ (Ne.symm hax), List.indexOf_cons_ne _ (Ne.symm hbx)]
      exact Nat.succ_lt_succ hr
    · simp only [dedupByKeyAux, id_eq, if_neg hx]
      refine List.Pairwise.cons ?_ ?_
      · intro b hb
        have hbx : b ≠ x := fun he =>
          (mem_of_mem_dedupByKeyAux id (x :: seen) xs b hb).2
            (by simp [he])
        rw [List.indexOf_cons_self, List.indexOf_cons_ne _ (Ne.symm hbx)]
        exact Nat.succ_pos _
      · refine (ih (x :: seen)).imp_of_mem ?_
        intro a b ha hb hr
        have hax : a ≠ x := fun he =>
          (mem_of_mem_dedupByKeyAux id (x :: seen) xs a ha).2 (by simp [he])
        have hbx : b ≠ x := fun he =>
          (mem_of_mem_dedupByKeyAux id (x :: seen) xs b hb).2 (by simp [he])
        rw [List.indexOf_cons_ne _ (Ne.symm hax), List.indexOf_cons_ne _ (Ne.symm hbx)]
        exact Nat.succ_lt_succ hr

/-- `_validate_items_local` is exactly: drop falsy entries, drop records
failing the required-field test, dedup by the stripped `(url, title)` key,
and apply the summary/source fixup to the survivors. -/
theorem validateAux_eq (items : List (Option Item)) (seen : List (String × String)) :
    validateAux items seen =
      (dedupByKeyAux itemKey seen ((items.filterMap id).filter validKeep)).map
        fixupItem := by
  induction items generalizing seen with
  | nil => rfl
  | cons o rest ih =>
    cases o with
    | none => simpa [validateAux, List.filterMap_cons] using ih seen
    | some it =>
      by_cases hk : validKeep it
      · by_cases hs : itemKey it ∈ seen
        · simp [validateAux, List.filterMap_cons, List.filter_cons, hk, hs,
            dedupByKeyAux, ih seen]
        · simp [validateAux, List.filterMap_cons, List.filter_cons, hk, hs,
            dedupByKeyAux, ih (itemKey it :: seen)]
      · simp [validateAux, List.filterMap_cons, List.filter_cons, hk, ih seen]

/-! ## Claim C5: the deterministic validation pass -/

/-- C5 counterexample: a record missing `source` whose url has a derivable
domain is *retained* (with `source` filled from the domain), not excluded. -/
theorem c5_missing_source_counterexample :
    itemNoSource.source = none ∧
    validateItemsLocal [some itemNoSource] ≠ [] := by
  refine ⟨rfl, ?_⟩
  decide

/-- C5 (amended): every record in the validation output has truthy `title`,
`url` and `source` and a present (possibly empty-string) `summary`; a single
record is kept iff its `url`, `title` and `source`-or-derived-domain are
truthy — so a record missing `title` or `url` is excluded, a record missing
`source` is excluded only when no domain can be derived from its url, and an
empty-string `summary` never causes exclusion (it is stored as `""`). -/
theorem c5_validation_safety_net :
    (∀ (items : List (Option Item)), ∀ o ∈ validateItemsLocal items,
      truthyS o.title = true ∧ truthyS o.url = true ∧ truthyS o.source = true ∧
      ∃ s, o.summary = some s) ∧
    (∀ it : Item, validateItemsLocal [some it] =
      if validKeep it then [fixupItem it] else []) := by
  constructor
  · intro items o ho
    rw [validateItemsLocal, validateAux_eq] at ho
    obtain ⟨it, hit, rfl⟩ := List.mem_map.mp ho
    have hmem := mem_of_mem_dedupByKeyAux itemKey [] _ it hit
    have hvk : validKeep it = true := (List.mem_filter.mp hmem.1).2
    have hsplit := hvk
    rw [validKeep, Bool.and_eq_true, Bool.and_eq_true] at hsplit
    obtain ⟨⟨hurl, htitle⟩, hsrc⟩ := hsplit
    exact ⟨htitle, hurl, hsrc, _, rfl⟩
  · intro it
    by_cases hk : validKeep it <;> simp [validateItemsLocal, validateAux, hk]

/-- Witness for C5: the complete record with empty summary is retained with
all required fields truthy; the record missing a title is excluded. -/
theorem c5_validation_safety_net_witness :
    (truthyS (fixupItem itemComplete).title = true ∧
      truthyS (fixupItem itemComplete).url = true ∧
      truthyS (fixupItem itemComplete).source = true ∧
      ∃ s, (fixupItem itemComplete).summary = some s) ∧
    validateItemsLocal [some itemNoTitle] = [] := by
  constructor
  · exact c5_validation_safety_net.1 [some itemComplete] (fixupItem itemComplete)
      (by decide)
  · exact (c5_validation_safety_net.2 itemNoTitle).trans (by decide)

/-! ## Claim C6: deduplication by `(url, title)` -/

/-- C6 counterexample: the dedup key strips whitespace, so two valid records
with *distinct* `(url, title)` pairs (urls differing only in surrounding
spaces) collapse to one output record — the second pair does not appear in
the output at all. -/
theorem c6_strip_key_counterexample :
    validKeep itemDupSpaced = true ∧
    validKeep itemDupStripped = true ∧
    (itemDupSpaced.url, itemDupSpaced.title) ≠ (itemDupStripped.url, itemDupStripped.title) ∧
    validateItemsLocal [some itemDupSpaced, some itemDupStripped] =
      [fixupItem itemDupSpaced] ∧
    (fixupItem itemDupSpaced).url ≠ itemDupStripped.url := by
  decide

/-- C6 (amended): among the records that pass validation, the output carries
each distinct *stripped* `(url.strip(), title.strip())` key exactly once
(pairwise-distinct keys, and every valid record's key is represented), the
record kept for a key is the first valid record bearing it, and the output is
the fixup image of a sublist of the valid records, so first-seen order is
preserved. -/
theorem c6_dedup_first_seen (items : List (Option Item)) :
    (validateItemsLocal items).Pairwise (fun a b => itemKey a ≠ itemKey b) ∧
    (∀ it ∈ (items.filterMap id).filter validKeep,
      ∃ o ∈ validateItemsLocal items, itemKey o = itemKey it) ∧
    (∀ o ∈ validateItemsLocal items,
      ∃ it, ((items.filterMap id).filter validKeep).find?
          (fun x => decide (itemKey x = itemKey o)) = some it ∧ o = fixupItem it) ∧
    ∃ l : List Item, l.Sublist ((items.filterMap id).filter validKeep) ∧
      validateItemsLocal items = l.map fixupItem := by
  have heq := validateAux_eq items []
  rw [validateItemsLocal]
  refine ⟨?_, ?_, ?_, ?_⟩
  · rw [heq, List.pairwise_map]
    exact keys_nodup_dedupByKeyAux itemKey [] _
  · intro it hit
    obtain ⟨b, hb, hkb⟩ :=
      exists_key_mem_dedupByKeyAux itemKey [] _ it hit (by simp)
    exact ⟨fixupItem b, by rw [heq]; exact List.mem_map_of_mem _ hb, hkb⟩
  · intro o ho
    rw [heq] at ho
    obtain ⟨b, hb, rfl⟩ := List.mem_map.mp ho
    exact ⟨b, find_first_dedupByKeyAux itemKey [] _ b hb, rfl⟩
  · exact ⟨dedupByKeyAux itemKey [] _, sublist_dedupByKeyAux itemKey [] _, heq⟩

/-- Witness for C6: with a spaced duplicate and one unrelated record, the
unrelated record's key is represented in the output. -/
theorem c6_dedup_first_seen_witness :
    ∃ o ∈ validateItemsLocal [some itemDupSpaced, some itemOther],
      itemKey o = itemKey itemOther :=
  (c6_dedup_first_seen [some itemDupSpaced, some itemOther]).2.1 itemOther (by decide)

/-! ## Claim C8: the query builder -/

/-- C8: `_build_queries` returns at most 50 queries, with no duplicates, as a
sublist of the generated query sequence whose elements appear in order of
first occurrence; with an empty keyword set every returned query is a
priority-resource-link query. -/
theorem c8_build_queries (keywords : List String) (country : String) (daysBack : Nat)
    (startDateIso : String) (sourceDomains resourceLinks : List String) :
    (buildQueries keywords country daysBack startDateIso sourceDomains
      resourceLinks).length ≤ 50 ∧
    (buildQueries keywords country daysBack startDateIso sourceDomains
      resourceLinks).Nodup ∧
    (buildQueries keywords country daysBack startDateIso sourceDomains
      resourceLinks).Sublist
      (buildQueriesRaw keywords startDateIso sourceDomains resourceLinks) ∧
    (buildQueries keywords country daysBack startDateIso sourceDomains
      resourceLinks).Pairwise (fun a b =>
        (buildQueriesRaw keywords startDateIso sourceDomains resourceLinks).indexOf a <
        (buildQueriesRaw keywords startDateIso sourceDomains resourceLinks).indexOf b) ∧
    (keywords = [] →
      ∀ q ∈ buildQueries keywords country daysBack startDateIso sourceDomains
        resourceLinks,
      ∃ link ∈ resourceLinks,
        q = "site:" ++ link ++ " " ++ ("after:" ++ startDateIso)) := by
  have hsub : (buildQueries keywords country daysBack startDateIso sourceDomains
      resourceLinks).Sublist
      (buildQueriesRaw keywords startDateIso sourceDomains resourceLinks) := by
    rw [buildQueries, dedupFromKeys]
    exact (List.take_sublist _ _).trans (sublist_dedupByKeyAux id [] _)
  refine ⟨?_, ?_, hsub, ?_, ?_⟩
  · rw [buildQueries]
    exact List.length_take_le 50 _
  · rw [buildQueries, dedupFromKeys]
    exact ((keys_nodup_dedupByKeyAux id [] _).sublist (List.take_sublist _ _))
  · rw [buildQueries, dedupFromKeys]
    exact (pairwise_indexOf_dedupByKeyAux_id [] _).sublist (List.take_sublist _ _)
  · rintro rfl q hq
    have hraw : q ∈ buildQueriesRaw [] startDateIso sourceDomains resourceLinks :=
      hsub.subset hq
    have : buildQueriesRaw [] startDateIso sourceDomains resourceLinks =
        resourceLinks.map fun link => "site:" ++ link ++ " " ++ ("after:" ++ startDateIso) := by
      simp [buildQueriesRaw]
    rw [this] at hraw
    obtain ⟨link, hlink, hql⟩ := List.mem_map.mp hraw
    exact ⟨link, hlink, hql.symm⟩

/-- Witness for C8: with no keywords, one domain and one priority link, the
single produced query is the priority-link query. -/
theorem c8_build_queries_witness :
    (buildQueries [] "US" 14 "2024-01-01" ["gov"] ["https://a.com"]).length ≤ 50 ∧
    ∃ link ∈ ["https://a.com"],
      "site:https://a.com after:2024-01-01" =
        "site:" ++ link ++ " " ++ ("after:" ++ "2024-01-01") :=
  ⟨(c8_build_queries [] "US" 14 "2024-01-01" ["gov"] ["https://a.com"]).1,
    (c8_build_queries [] "US" 14 "2024-01-01" ["gov"] ["https://a.com"]).2.2.2.2
      rfl "site:https://a.com after:2024-01-01" (by decide)⟩

/-! ## Claim C9: the discovery time-window filter -/

/-- C9: with a parsed cutoff date, the filter of `gather_news` excludes every
candidate whose `published_at` parses to a date strictly before the cutoff's
date, keeps every candidate with no `published_at`, and keeps every candidate
whose date string fails to parse. -/
theorem c9_time_window_filter (startDateIso : String) (c : PyDateTime)
    (candidates : List Item)
    (hc : pyFromIsoformat startDateIso = some c) :
    (∀ it ∈ candidates, ∀ s, it.published_at = some s → s ≠ "" →
      ∀ d, pyFromIsoformat (replaceZ s) = some d →
      dateLtB (dateTriple d) (dateTriple c) = true →
      it ∉ timeWindowFilter startDateIso candidates) ∧
    (∀ it ∈ candidates, it.published_at = none →
      it ∈ timeWindowFilter startDateIso candidates) ∧
    (∀ it ∈ candidates, ∀ s, it.published_at = some s →
      pyFromIsoformat (replaceZ s) = none →
      it ∈ timeWindowFilter startDateIso candidates) := by
  have hmemiff : ∀ it : Item, it ∈ timeWindowFilter startDateIso candidates ↔
      it ∈ candidates ∧ keepInWindow (pyFromIsoformat startDateIso) it = true := by
    intro it
    simp [timeWindowFilter, List.mem_filter]
  refine ⟨?_, ?_, ?_⟩
  · intro it hmem s hs hsne d hd hlt hin
    have hkeep := ((hmemiff it).mp hin).2
    rw [hc] at hkeep
    simp [keepInWindow, hs, hsne, hd, hlt] at hkeep
  · intro it hmem hnone
    refine (hmemiff it).mpr ⟨hmem, ?_⟩
    simp [keepInWindow, hnone]
  · intro it hmem s hs hparse
    refine (hmemiff it).mpr ⟨hmem, ?_⟩
    rw [hc]
    by_cases hse : s = ""
    · simp [keepInWindow, hs, hse]
    · simp [keepInWindow, hs, hse, hparse]

/-- Witness for C9: cutoff 2024-01-15 (14 days before 2024-01-29); a record
published 2024-01-09 (20 days back) is excluded, an undated record and an
unparseable-date record are kept. -/
theorem c9_time_window_filter_witness :
    itemOld ∉ timeWindowFilter "2024-01-15" [itemOld, itemUndated, itemBadDate] ∧
    itemUndated ∈ timeWindowFilter "2024-01-15" [itemOld, itemUndated, itemBadDate] ∧
    itemBadDate ∈ timeWindowFilter "2024-01-15" [itemOld, itemUndated, itemBadDate] := by
  obtain ⟨hexcl, hkeepNone, hkeepBad⟩ :=
    c9_time_window_filter "2024-01-15" ⟨2024, 1, 15, 0, 0, 0, none⟩
      [itemOld, itemUndated, itemBadDate] rfl
  exact ⟨hexcl itemOld (by decide) "2024-01-09" rfl (by decide)
      ⟨2024, 1, 9, 0, 0, 0, none⟩ rfl (by decide),
    hkeepNone itemUndated (by decide) rfl,
    hkeepBad itemBadDate (by decide) "whenever" rfl rfl⟩

end AICur
